import Mathlib

/-!
Shallow embedding of the mockchain ledger transition engine
(`chain-impl-mockchain/src/ledger.rs`) and of the collaborator stores it
uses (value arithmetic, UTXO store, account store, delegation state,
settings), the latter modelled from the specification because their
source modules are not part of the verified tree.

Machine integers (`u64` monetary values) are modelled as `Nat` with an
explicit `2 ^ 64` bound checked where the code checks for overflow.
Rust `panic!`/`assert!`/`unwrap()`/`unimplemented!()` outcomes are
modelled by the dedicated `PRes.panic` result, distinct from a returned
`Err`.
-/

/-- A monetary amount (`Value(u64)` in the code). -/
abbrev Value := Nat

/-- Exclusive upper bound of the `u64` value type. -/
def U64LIMIT : Nat := 2 ^ 64

/-- Modelled from the spec: error type of the checked value arithmetic
(the `value` module is not in the verified tree). Overflow of a checked
addition is the only failure used by the ledger. -/
inductive ValueError where
  | Overflow
deriving DecidableEq, Repr

/-- Modelled from the spec: checked (overflow-safe) addition of two
`u64` monetary amounts. -/
def vadd (a b : Value) : Except ValueError Value :=
  if a + b < U64LIMIT then .ok (a + b) else .error .Overflow

/-- Modelled from the spec: the aggregate-sum operation of the value
component — fold the checked addition over a list, starting from zero,
failing on the first overflow. -/
def Value.sum (xs : List Value) : Except ValueError Value :=
  xs.foldl (fun acc v => match acc with
    | .error e => .error e
    | .ok a => vadd a v) (.ok 0)

/-- Transaction identifiers (abstract cryptographic hashes). -/
abbrev TransactionId := Nat

/-- Account identifiers (`account::Identifier`). -/
abbrev Identifier := Nat

/-- Public keys (spending keys, legacy extended public keys). -/
abbrev PubKey := Nat

/-- Legacy (old scheme) addresses. -/
abbrev OldAddress := Nat

/-- Per-account spending counter (nonce). -/
abbrev SpendingCounter := Nat

/-- Delegation certificates, abstract payloads. -/
abbrev Certificate := Nat

/-- Settings (versioned protocol parameters), abstract. -/
abbrev Settings := Nat

/-- A settings update proposal, abstract. -/
abbrev UpdateProposal := Nat

/-- Payload of a legacy-UTXO-declaration message, abstract. -/
abbrev OldUtxoDecl := Nat

/-- Modelled from the spec: `Settings::apply` is a total function of
(settings, proposal) — here an arbitrary total combination. -/
def Settings.apply (s : Settings) (u : UpdateProposal) : Settings :=
  s + u + 1

/-- Address discrimination tag (test vs production network). -/
inductive Discrimination where
  | Test
  | Production
deriving DecidableEq, Repr

/-- Address kind: single public key, group of two keys, or an account
identifier (`chain_addr::Kind`). -/
inductive Kind where
  | Single (pk : PubKey)
  | Group (pk1 pk2 : PubKey)
  | Account (id : Identifier)
deriving DecidableEq, Repr

/-- A (current scheme) address: discrimination plus kind. -/
structure Address where
  d : Discrimination
  kind : Kind
deriving DecidableEq, Repr

/-- `Address::discrimination()`. -/
def Address.discrimination (a : Address) : Discrimination := a.d

/-- `Address::public_key()` — `some` spending key for `Single` and
`Group` addresses, `none` for `Account` addresses (the code calls
`.unwrap()` on this). -/
def Address.public_key (a : Address) : Option PubKey :=
  match a.kind with
  | .Single pk => some pk
  | .Group pk _ => some pk
  | .Account _ => none

/-- Messages a signature can be computed over: a bare transaction id, or
a transaction id combined with a spending counter
(`TransactionIdSpendingCounter`). -/
inductive Msg where
  | txId (t : TransactionId)
  | txIdCounter (t : TransactionId) (c : SpendingCounter)
deriving DecidableEq, Repr

/-- `TransactionIdSpendingCounter::new` — the composite signed message
for account witnesses. -/
def TransactionIdSpendingCounter.new (t : TransactionId) (c : SpendingCounter) : Msg :=
  .txIdCounter t c

/-- Result of the signature-verification primitive. -/
inductive Verification where
  | Success
  | Failed
deriving DecidableEq, Repr

/-- Modelled from the spec: a signature is abstracted as the pair (key,
message) it validly signs, making verification an executable exact
check; the primitive never panics, it returns the `Failed` variant. -/
structure Sig where
  key : PubKey
  msg : Msg
deriving DecidableEq, Repr

/-- Modelled from the spec: the signature-verification primitive —
succeeds exactly on the key and message the signature was made for. -/
def Sig.verify (s : Sig) (key : PubKey) (m : Msg) : Verification :=
  if s.key = key ∧ s.msg = m then .Success else .Failed

/-- Modelled from the spec: whether a legacy address is derived from the
given extended public key (`legacy::oldaddress_from_xpub`; the `legacy`
module is not in the verified tree). In this model a legacy address is
exactly the key that derives it. -/
def oldaddress_from_xpub (address : OldAddress) (xpub : PubKey) : Bool :=
  address = xpub

/-- A transaction output: destination address and value
(`Output<Addr>`). -/
structure Output (α : Type) where
  address : α
  value : Value
deriving DecidableEq, Repr

/-- Pointer to a UTXO: producing transaction id, output index, and the
value asserted by the spender (`UtxoPointer`). -/
structure UtxoPointer where
  transaction_id : TransactionId
  output_index : Nat
  value : Value
deriving DecidableEq, Repr

/-- A transaction input (the `InputEnum` view): spend a UTXO or debit an
account. -/
inductive Input where
  | utxo (p : UtxoPointer)
  | account (id : Identifier) (value : Value)
deriving DecidableEq, Repr

/-- The declared value of an input (field `value` of `Input`). -/
def Input.value : Input → Value
  | .utxo p => p.value
  | .account _ v => v

/-- A witness: proof of authorization paired positionally with an input
(`Witness`). -/
inductive Witness where
  | Utxo (sig : Sig)
  | OldUtxo (xpub : PubKey) (sig : Sig)
  | Account (sig : Sig)
deriving DecidableEq, Repr

/-- One stored entry of a UTXO store: (producing transaction id, output
index, output record). -/
structure UtxoEntry (α : Type) where
  tid : TransactionId
  idx : Nat
  output : Output α
deriving DecidableEq, Repr

/-- Modelled from the spec: error type of the UTXO store — removal of an
absent entry, duplicate insertion. -/
inductive UtxoError where
  | TransactionNotFound
  | AlreadyExists
deriving DecidableEq, Repr

/-- Modelled from the spec: the UTXO store (`utxo::Ledger<Addr>`), a
persistent mapping from (transaction id, output index) to an output
record, here a list of entries. -/
abbrev UtxoLedger (α : Type) := List (UtxoEntry α)

/-- Modelled from the spec: empty UTXO store (`utxo::Ledger::new`). -/
def UtxoLedger.new (α : Type) : UtxoLedger α := []

/-- Modelled from the spec: `remove(tx_id, index)` — look up and remove
the entry, returning the shrunk store and the output, or a not-found
error. -/
def UtxoLedger.remove {α : Type} :
    UtxoLedger α → TransactionId → Nat → Except UtxoError (UtxoLedger α × Output α)
  | [], _, _ => .error .TransactionNotFound
  | e :: rest, tid, idx =>
    if e.tid = tid ∧ e.idx = idx then .ok (rest, e.output)
    else match UtxoLedger.remove rest tid idx with
      | .ok (rest', o) => .ok (e :: rest', o)
      | .error err => .error err

/-- Whether the store holds an entry at (tid, idx). -/
def UtxoLedger.contains {α : Type} (l : UtxoLedger α) (tid : TransactionId) (idx : Nat) : Bool :=
  l.any (fun e => e.tid = tid ∧ e.idx = idx)

/-- Modelled from the spec: `add(tx_id, [(index, output)])` — insert all
pairs under one transaction id, rejecting duplicate insertion. -/
def UtxoLedger.add {α : Type} (l : UtxoLedger α) (tid : TransactionId)
    (pairs : List (Nat × Output α)) : Except UtxoError (UtxoLedger α) :=
  if pairs.any (fun p => l.contains tid p.1) then .error .AlreadyExists
  else .ok (l ++ pairs.map (fun p => ⟨tid, p.1, p.2⟩))

/-- State of one account: balance and spending counter. -/
structure AccountState where
  balance : Value
  counter : SpendingCounter
deriving DecidableEq, Repr

/-- Modelled from the spec: error type of the account store
(`account::LedgerError`) — non-existent account, duplicate creation,
insufficient funds on debit, balance overflow on credit. -/
inductive AccountLedgerError where
  | NonExistent
  | AlreadyExists
  | InsufficientFunds
  | Overflow
deriving DecidableEq, Repr

/-- Modelled from the spec: the account store (`account::Ledger`), a
persistent mapping from account identifier to (balance, spending
counter), here an association list. -/
abbrev AccountLedger := List (Identifier × AccountState)

/-- Modelled from the spec: empty account store
(`account::Ledger::new`). -/
def AccountLedger.new : AccountLedger := []

/-- Lookup of an account's state by identifier (first match). -/
def AccountLedger.lookup : AccountLedger → Identifier → Option AccountState
  | [], _ => none
  | (i, st) :: rest, id => if i = id then some st else AccountLedger.lookup rest id

/-- Modelled from the spec: `add_account(id, initial_value)` — create
the account with a fresh spending counter, or fail if it already
exists. -/
def AccountLedger.add_account (l : AccountLedger) (id : Identifier) (v : Value) :
    Except AccountLedgerError AccountLedger :=
  match l.lookup id with
  | some _ => .error .AlreadyExists
  | none => .ok ((id, ⟨v, 0⟩) :: l)

/-- Modelled from the spec: `add_value(id, value)` — credit an existing
account, failing on a non-existent account or on balance overflow. -/
def AccountLedger.add_value : AccountLedger → Identifier → Value →
    Except AccountLedgerError AccountLedger
  | [], _, _ => .error .NonExistent
  | (i, st) :: rest, id, v =>
    if i = id then
      if st.balance + v < U64LIMIT then .ok ((i, ⟨st.balance + v, st.counter⟩) :: rest)
      else .error .Overflow
    else match AccountLedger.add_value rest id v with
      | .ok rest' => .ok ((i, st) :: rest')
      | .error e => .error e

/-- Modelled from the spec: `remove_value(id, value)` — debit an
existing account with sufficient funds, returning the new store and the
spending counter as it was before the debit; the stored counter is
incremented by the debit. -/
def AccountLedger.remove_value : AccountLedger → Identifier → Value →
    Except AccountLedgerError (AccountLedger × SpendingCounter)
  | [], _, _ => .error .NonExistent
  | (i, st) :: rest, id, v =>
    if i = id then
      if v ≤ st.balance then .ok ((i, ⟨st.balance - v, st.counter + 1⟩) :: rest, st.counter)
      else .error .InsufficientFunds
    else match AccountLedger.remove_value rest id v with
      | .ok (rest', c) => .ok ((i, st) :: rest', c)
      | .error e => .error e

/-- Modelled from the spec: delegation errors, abstract. -/
inductive DelegationError where
  | CertificateRejected
deriving DecidableEq, Repr

/-- Modelled from the spec: the delegation/stake state (the `stake`
module is not in the verified tree) — abstracted as the list of applied
certificates. -/
abbrev DelegationState := List Certificate

/-- Modelled from the spec: empty delegation state
(`DelegationState::new`). -/
def DelegationState.new : DelegationState := []

/-- Modelled from the spec: `DelegationState::apply(certificate)` —
produce an updated delegation state or a delegation-specific error (in
this model: reject a certificate already applied). -/
def DelegationState.apply (s : DelegationState) (c : Certificate) :
    Except DelegationError DelegationState :=
  if c ∈ s then .error .CertificateRejected else .ok (c :: s)

/-- `LinearFee` — fee schedule parameters (opaque to the claims). -/
structure LinearFee where
  constant : Nat
  coefficient : Nat
  certificate : Nat
deriving DecidableEq, Repr

/-- `LedgerStaticParameters` — immutable chain-wide parameters. -/
structure LedgerStaticParameters where
  discrimination : Discrimination
deriving DecidableEq, Repr

/-- `LedgerParameters` — dynamic per-validation parameters. -/
structure LedgerParameters where
  fees : LinearFee
  allow_account_creation : Bool
deriving DecidableEq, Repr

/-- The overall ledger snapshot (`Ledger`). -/
structure Ledger where
  utxos : UtxoLedger Address
  oldutxos : UtxoLedger OldAddress
  accounts : AccountLedger
  settings : Settings
  delegation : DelegationState
  static_params : LedgerStaticParameters
deriving DecidableEq, Repr

/-- `Ledger::new(static_parameters, settings)` — empty UTXO, account and
delegation state. -/
def Ledger.new (static_parameters : LedgerStaticParameters) (settings : Settings) : Ledger :=
  { utxos := UtxoLedger.new Address
    oldutxos := UtxoLedger.new OldAddress
    accounts := AccountLedger.new
    settings := settings
    delegation := DelegationState.new
    static_params := static_parameters }

/-- The error type of the transition engine (`ledger::Error`),
constructor for constructor. -/
inductive Error where
  | NotEnoughSignatures (inputs witnesses : Nat)
  | UtxoValueNotMatching (claimed recorded : Value)
  | UtxoError (e : UtxoError)
  | UtxoInvalidSignature (p : UtxoPointer) (o : Output Address) (w : Witness)
  | OldUtxoInvalidSignature (p : UtxoPointer) (o : Output OldAddress) (w : Witness)
  | OldUtxoInvalidPublicKey (p : UtxoPointer) (o : Output OldAddress) (w : Witness)
  | AccountInvalidSignature (id : Identifier) (w : Witness)
  | UtxoInputsTotal (e : ValueError)
  | UtxoOutputsTotal (e : ValueError)
  | Account (e : AccountLedgerError)
  | NotBalanced (total_input total_output : Value)
  | ZeroOutput (o : Output Address)
  | Delegation (e : DelegationError)
  | InvalidDiscrimination
  | ExpectingAccountWitness
  | ExpectingUtxoWitness
deriving DecidableEq, Repr

/-- Result of a Rust function that returns `Result<α, Error>` but can
also panic (`assert!`, `unwrap()`, `unimplemented!()`): `panic` is the
aborted computation, distinct from a returned error. -/
inductive PRes (α : Type) where
  | panic
  | error (e : Error)
  | ok (a : α)
deriving DecidableEq, Repr

/-- Whether a result is a returned `Ok`. -/
def PRes.isOk {α : Type} : PRes α → Bool
  | .ok _ => true
  | _ => false

/-- Whether a result is a returned `Err`. -/
def PRes.isError {α : Type} : PRes α → Bool
  | .error _ => true
  | _ => false

/-- Whether a result is a panic. -/
def PRes.isPanic {α : Type} : PRes α → Bool
  | .panic => true
  | _ => false

/-- Whether a result is the `NotBalanced` error. -/
def PRes.isNotBalanced {α : Type} : PRes α → Bool
  | .error (.NotBalanced _ _) => true
  | _ => false

/-- A transaction: ordered inputs, ordered outputs, extra payload
(`Transaction<Address, Extra>`). -/
structure Transaction (Extra : Type) where
  inputs : List Input
  outputs : List (Output Address)
  extra : Extra
deriving DecidableEq, Repr

/-- The no-payload extra of a plain transaction (`NoExtra`). -/
inductive NoExtra where
  | mk
deriving DecidableEq, Repr

/-- Canonical-encoding typeclass for extra payloads, used by the
transaction hash. -/
class Enc (α : Type) where
  enc : α → Nat

instance : Enc NoExtra := ⟨fun _ => 0⟩

instance : Enc Certificate := ⟨fun c => c + 1⟩

/-- A deterministic mixing step used by the abstract encoding. -/
def mix (a b : Nat) : Nat :=
  a * 1000003 + b + 7

/-- Fold the abstract encoding over a list. -/
def encList {α : Type} (f : α → Nat) (xs : List α) : Nat :=
  xs.foldl (fun a x => mix a (f x)) 3

/-- Encoding of a discrimination tag. -/
def encDiscrimination : Discrimination → Nat
  | .Test => 0
  | .Production => 1

/-- Encoding of an address kind. -/
def encKind : Kind → Nat
  | .Single pk => mix 0 pk
  | .Group pk1 pk2 => mix 1 (mix pk1 pk2)
  | .Account id => mix 2 id

/-- Encoding of an address. -/
def encAddress (a : Address) : Nat :=
  mix (encDiscrimination a.d) (encKind a.kind)

/-- Encoding of an input. -/
def encInput : Input → Nat
  | .utxo p => mix 0 (mix p.transaction_id (mix p.output_index p.value))
  | .account id v => mix 1 (mix id v)

/-- Encoding of an output. -/
def encOutput (o : Output Address) : Nat :=
  mix (encAddress o.address) o.value

/-- Modelled from the spec: the transaction identity
(`Transaction::hash`) is a cryptographic hash of the canonical encoding
of the transaction, excluding witnesses — abstracted here as a
deterministic encoding of inputs, outputs and extra payload. -/
def Transaction.hash {Extra : Type} [Enc Extra] (tx : Transaction Extra) : TransactionId :=
  mix (encList encInput tx.inputs) (mix (encList encOutput tx.outputs) (Enc.enc tx.extra))

/-- A transaction together with its witnesses
(`AuthenticatedTransaction<Address, Extra>`). -/
structure AuthenticatedTransaction (Extra : Type) where
  transaction : Transaction Extra
  witnesses : List Witness
deriving DecidableEq, Repr

/-- A block message (`Message`): legacy-UTXO declaration, plain
transaction, settings update, or certificate-bearing transaction. -/
inductive Message where
  | OldUtxoDeclaration (decl : OldUtxoDecl)
  | Transaction (tx : AuthenticatedTransaction NoExtra)
  | Update (proposal : UpdateProposal)
  | Certificate (tx : AuthenticatedTransaction Certificate)
deriving DecidableEq, Repr

/-- `input_utxo_verify` — verify (and spend) one UTXO input against its
witness. The `Utxo` branch calls `.unwrap()` on the stored output
address's public key, which panics when that address is of `Account`
kind. -/
def input_utxo_verify (ledger : Ledger) (transaction_id : TransactionId)
    (utxop : UtxoPointer) (witness : Witness) : PRes Ledger :=
  match witness with
  | .Account _ => .error .ExpectingUtxoWitness
  | .OldUtxo xpub signature =>
    match ledger.oldutxos.remove utxop.transaction_id utxop.output_index with
    | .error e => .error (.UtxoError e)
    | .ok (old_utxos, associated_output) =>
      if utxop.value ≠ associated_output.value then
        .error (.UtxoValueNotMatching utxop.value associated_output.value)
      else if oldaddress_from_xpub associated_output.address xpub then
        .error (.OldUtxoInvalidPublicKey utxop associated_output witness)
      else if signature.verify xpub (.txId transaction_id) = .Failed then
        .error (.OldUtxoInvalidSignature utxop associated_output witness)
      else
        .ok { ledger with oldutxos := old_utxos }
  | .Utxo signature =>
    match ledger.utxos.remove utxop.transaction_id utxop.output_index with
    | .error e => .error (.UtxoError e)
    | .ok (new_utxos, associated_output) =>
      if utxop.value ≠ associated_output.value then
        .error (.UtxoValueNotMatching utxop.value associated_output.value)
      else
        match associated_output.address.public_key with
        | none => .panic
        | some pk =>
          if signature.verify pk (.txId transaction_id) = .Failed then
            .error (.UtxoInvalidSignature utxop associated_output witness)
          else
            .ok { ledger with utxos := new_utxos }

/-- `input_account_verify` — debit the account by the claimed value
(failing on insufficient funds or a non-existent account), then check
the witness kind and verify the signature over the composite message of
transaction id and the pre-debit spending counter returned by the
debit. -/
def input_account_verify (ledger : AccountLedger) (transaction_id : TransactionId)
    (account : Identifier) (value : Value) (witness : Witness) :
    Except Error AccountLedger :=
  match ledger.remove_value account value with
  | .error e => .error (.Account e)
  | .ok (new_ledger, spending_counter) =>
    match witness with
    | .OldUtxo _ _ => .error .ExpectingAccountWitness
    | .Utxo _ => .error .ExpectingAccountWitness
    | .Account sig =>
      if sig.verify account (TransactionIdSpendingCounter.new transaction_id spending_counter) =
          .Failed then
        .error (.AccountInvalidSignature account witness)
      else
        .ok new_ledger

/-- Step 2 of `internal_apply_transaction`: verify each (input, witness)
pair in order, threading the ledger through the spends. -/
def verifyInputs : Ledger → TransactionId → List (Input × Witness) → PRes Ledger
  | ledger, _, [] => .ok ledger
  | ledger, tid, (input, witness) :: rest =>
    match input with
    | .utxo u =>
      match input_utxo_verify ledger tid u witness with
      | .panic => .panic
      | .error e => .error e
      | .ok ledger' => verifyInputs ledger' tid rest
    | .account account_id value =>
      match input_account_verify ledger.accounts tid account_id value witness with
      | .error e => .error e
      | .ok accounts' => verifyInputs { ledger with accounts := accounts' } tid rest

/-- Step 4 of `internal_apply_transaction`: walk the outputs in order,
rejecting zero values and wrong discriminations, staging Single/Group
outputs for UTXO insertion and crediting (or spontaneously creating)
accounts for Account outputs. -/
def applyOutputs (dyn_params : LedgerParameters) (disc : Discrimination) :
    AccountLedger → Nat → List (Output Address) →
    Except Error (AccountLedger × List (Nat × Output Address))
  | accounts, _, [] => .ok (accounts, [])
  | accounts, index, output :: rest =>
    if output.value = 0 then .error (.ZeroOutput output)
    else if output.address.discrimination ≠ disc then .error .InvalidDiscrimination
    else
      match output.address.kind with
      | .Single _ | .Group _ _ =>
        match applyOutputs dyn_params disc accounts (index + 1) rest with
        | .error e => .error e
        | .ok (accounts', rest_utxos) => .ok (accounts', (index, output) :: rest_utxos)
      | .Account identifier =>
        match accounts.add_value identifier output.value with
        | .ok accounts' => applyOutputs dyn_params disc accounts' (index + 1) rest
        | .error .NonExistent =>
          if dyn_params.allow_account_creation then
            match accounts.add_account identifier output.value with
            | .ok accounts' => applyOutputs dyn_params disc accounts' (index + 1) rest
            | .error e => .error (.Account e)
          else .error (.Account .NonExistent)
        | .error e => .error (.Account e)

/-- `internal_apply_transaction` — the transition function for one
transaction: arity assertion and check, per-input verification, the
balance check (note: the code computes BOTH totals by summing the input
list, mapping the second summation's overflow to `UtxoOutputsTotal`),
then output application and atomic UTXO insertion. -/
def internal_apply_transaction (ledger : Ledger) (dyn_params : LedgerParameters)
    (transaction_id : TransactionId) (inputs : List Input)
    (outputs : List (Output Address)) (witnesses : List Witness) : PRes Ledger :=
  if ¬ (inputs.length < 255 ∧ outputs.length < 255 ∧ witnesses.length < 255) then .panic
  else if inputs.length ≠ witnesses.length then
    .error (.NotEnoughSignatures inputs.length witnesses.length)
  else
    match verifyInputs ledger transaction_id (inputs.zip witnesses) with
    | .panic => .panic
    | .error e => .error e
    | .ok ledger =>
      match Value.sum (inputs.map Input.value) with
      | .error e => .error (.UtxoInputsTotal e)
      | .ok total_input =>
        match Value.sum (inputs.map Input.value) with
        | .error e => .error (.UtxoOutputsTotal e)
        | .ok total_output =>
          if total_input ≠ total_output then
            .error (.NotBalanced total_input total_output)
          else
            match applyOutputs dyn_params ledger.static_params.discrimination
                ledger.accounts 0 outputs with
            | .error e => .error e
            | .ok (accounts, new_utxos) =>
              match ledger.utxos.add transaction_id new_utxos with
              | .error e => .error (.UtxoError e)
              | .ok utxos => .ok { ledger with accounts := accounts, utxos := utxos }

/-- `Ledger::apply_transaction` — hash the transaction and run the
internal transition function on its parts. -/
def Ledger.apply_transaction {Extra : Type} [Enc Extra] (ledger : Ledger)
    (signed_tx : AuthenticatedTransaction Extra) (dyn_params : LedgerParameters) :
    PRes Ledger :=
  internal_apply_transaction ledger dyn_params signed_tx.transaction.hash
    signed_tx.transaction.inputs signed_tx.transaction.outputs signed_tx.witnesses

/-- `Ledger::apply_update` — replace the settings by
`settings.apply(update)`. -/
def Ledger.apply_update (ledger : Ledger) (update : UpdateProposal) : PRes Ledger :=
  .ok { ledger with settings := ledger.settings.apply update }

/-- `Ledger::apply_certificate` — apply the enclosing transaction first,
then apply the certificate payload to the delegation state, propagating
either failure. -/
def Ledger.apply_certificate (ledger : Ledger)
    (auth_cert : AuthenticatedTransaction Certificate)
    (dyn_params : LedgerParameters) : PRes Ledger :=
  match ledger.apply_transaction auth_cert dyn_params with
  | .panic => .panic
  | .error e => .error e
  | .ok ledger' =>
    match ledger'.delegation.apply auth_cert.transaction.extra with
    | .error e => .error (.Delegation e)
    | .ok d => .ok { ledger' with delegation := d }

/-- The per-message dispatch of `Ledger::apply_block`'s loop body: a
legacy-UTXO declaration hits `unimplemented!()`, i.e. a panic; the other
tags route to the matching application function. -/
def Ledger.applyMessage (ledger : Ledger) (ledger_params : LedgerParameters) :
    Message → PRes Ledger
  | .OldUtxoDeclaration _ => .panic
  | .Transaction authenticated_tx =>
    ledger.apply_transaction authenticated_tx ledger_params
  | .Update update_proposal => ledger.apply_update update_proposal
  | .Certificate authenticated_cert_tx =>
    ledger.apply_certificate authenticated_cert_tx ledger_params

/-- `Ledger::apply_block` — fold the messages over ledger snapshots,
dispatching by message tag, aborting on the first failure. -/
def Ledger.apply_block : Ledger → LedgerParameters → List Message → PRes Ledger
  | ledger, _, [] => .ok ledger
  | ledger, ledger_params, content :: rest =>
    match ledger.applyMessage ledger_params content with
    | .panic => .panic
    | .error e => .error e
    | .ok new_ledger => Ledger.apply_block new_ledger ledger_params rest

/-- An address of the kind the code stages for UTXO insertion: `Single`
or `Group`, never `Account`. -/
def addrIsUtxoKind (a : Address) : Bool :=
  match a.kind with
  | .Single _ => true
  | .Group _ _ => true
  | .Account _ => false

/-- Invariant: every output record stored in the current (non-legacy)
UTXO set has an address of `Single` or `Group` kind. -/
def utxoInvariant (l : Ledger) : Prop :=
  ∀ e ∈ l.utxos, addrIsUtxoKind e.output.address = true

/-- The ledgers reachable from `Ledger::new` by successful applications
of `apply_block`. -/
inductive Reachable : Ledger → Prop where
  | base (sp : LedgerStaticParameters) (s : Settings) : Reachable (Ledger.new sp s)
  | step (l : Ledger) (p : LedgerParameters) (msgs : List Message) (l2 : Ledger) :
      Reachable l → Ledger.apply_block l p msgs = .ok l2 → Reachable l2

/-- A pay-to-account output carrying the ledger's own discrimination. -/
def accOut (l : Ledger) (id : Identifier) (v : Value) : Output Address :=
  { address := { d := l.static_params.discrimination, kind := .Account id }, value := v }

/-- Fixture: dynamic parameters with spontaneous account creation. -/
def dynT : LedgerParameters := { fees := ⟨0, 0, 0⟩, allow_account_creation := true }

/-- Fixture: dynamic parameters without spontaneous account creation. -/
def dynF : LedgerParameters := { fees := ⟨0, 0, 0⟩, allow_account_creation := false }

/-- Fixture: test-network static parameters. -/
def spT : LedgerStaticParameters := { discrimination := .Test }

/-- Fixture: the empty ledger. -/
def l0 : Ledger := Ledger.new spT 0

/-- Fixture: a ledger holding one account (id 7, balance 10, counter 0). -/
def lAcc : Ledger := { l0 with accounts := [(7, ⟨10, 0⟩)] }

/-- Fixture: an unbalanced transaction — account input of declared value
2, single output of value 1 to a fresh account. -/
def txUnbal : Transaction NoExtra :=
  { inputs := [.account 7 2]
    outputs := [{ address := { d := .Test, kind := .Account 9 }, value := 1 }]
    extra := .mk }

/-- Fixture: a valid account witness for `txUnbal` signed over its hash
and the pre-debit counter 0. -/
def wUnbal : Witness := .Account ⟨7, .txIdCounter txUnbal.hash 0⟩

/-- Fixture: the unbalanced transaction with its valid witness. -/
def authUnbal : AuthenticatedTransaction NoExtra :=
  { transaction := txUnbal, witnesses := [wUnbal] }

/-- Fixture: a transaction with one input and no witness (the spec's
`NotEnoughSignatures(1, 0)` scenario). -/
def authNoWit : AuthenticatedTransaction NoExtra :=
  { transaction :=
      { inputs := [.utxo ⟨0, 0, 42000⟩]
        outputs := [{ address := { d := .Test, kind := .Single 2 }, value := 1 }]
        extra := .mk }
    witnesses := [] }

/-- Fixture: a legacy output owned by (the address derived from) key 11. -/
def outOld : Output OldAddress := { address := 11, value := 5 }

/-- Fixture: a ledger holding one legacy UTXO (tx 3, index 0). -/
def lOld : Ledger := { l0 with oldutxos := [⟨3, 0, outOld⟩] }

/-- Fixture: the pointer to the legacy UTXO of `lOld`, claiming the
recorded value. -/
def ptrOld : UtxoPointer := ⟨3, 0, 5⟩

/-- Fixture: a transaction with no inputs and one zero-value output. -/
def authZero : AuthenticatedTransaction NoExtra :=
  { transaction :=
      { inputs := []
        outputs := [{ address := { d := .Test, kind := .Single 2 }, value := 0 }]
        extra := .mk }
    witnesses := [] }

/-- Fixture: a ledger whose delegation state already holds certificate 5. -/
def lDel : Ledger := { l0 with delegation := [5] }

/-- Fixture: a certificate-bearing transaction with no inputs or
outputs, carrying certificate 5. -/
def certTx : AuthenticatedTransaction Certificate :=
  { transaction := { inputs := [], outputs := [], extra := 5 }, witnesses := [] }

/-! ## Store lemmas -/

theorem AccountLedger.lookup_none_add_value :
    ∀ (l : AccountLedger) (id : Identifier) (v : Value),
    l.lookup id = none → l.add_value id v = .error .NonExistent
  | [], _, _, _ => rfl
  | (i, s) :: rest, id, v, h => by
    simp only [AccountLedger.lookup] at h
    simp only [AccountLedger.add_value]
    split at h
    · exact absurd h (by simp)
    next hne =>
      rw [if_neg hne, AccountLedger.lookup_none_add_value rest id v h]

theorem AccountLedger.lookup_some_add_value :
    ∀ (l : AccountLedger) (id : Identifier) (v : Value) (st : AccountState),
    l.lookup id = some st → st.balance + v < U64LIMIT →
    ∃ l2, l.add_value id v = .ok l2 ∧ l2.lookup id = some ⟨st.balance + v, st.counter⟩
  | [], _, _, _, h, _ => by simp [AccountLedger.lookup] at h
  | (i, s) :: rest, id, v, st, h, hb => by
    simp only [AccountLedger.lookup] at h
    simp only [AccountLedger.add_value]
    split at h
    next heq =>
      injection h with hst
      subst hst
      refine ⟨(i, ⟨s.balance + v, s.counter⟩) :: rest, ?_, ?_⟩
      · rw [if_pos heq, if_pos hb]
      · simp [AccountLedger.lookup, heq]
    next hne =>
      obtain ⟨l2, h1, h2⟩ := AccountLedger.lookup_some_add_value rest id v st h hb
      refine ⟨(i, s) :: l2, ?_, ?_⟩
      · rw [if_neg hne, h1]
      · simp [AccountLedger.lookup, hne, h2]

theorem AccountLedger.remove_value_spec :
    ∀ (l : AccountLedger) (id : Identifier) (v : Value) (st : AccountState),
    l.lookup id = some st → v ≤ st.balance →
    ∃ l2, l.remove_value id v = .ok (l2, st.counter) ∧
      l2.lookup id = some ⟨st.balance - v, st.counter + 1⟩
  | [], _, _, _, h, _ => by simp [AccountLedger.lookup] at h
  | (i, s) :: rest, id, v, st, h, hv => by
    simp only [AccountLedger.lookup] at h
    simp only [AccountLedger.remove_value]
    split at h
    next heq =>
      injection h with hst
      subst hst
      refine ⟨(i, ⟨s.balance - v, s.counter + 1⟩) :: rest, ?_, ?_⟩
      · rw [if_pos heq, if_pos hv]
      · simp [AccountLedger.lookup, heq]
    next hne =>
      obtain ⟨l2, h1, h2⟩ := AccountLedger.remove_value_spec rest id v st h hv
      refine ⟨(i, s) :: l2, ?_, ?_⟩
      · rw [if_neg hne, h1]
      · simp [AccountLedger.lookup, hne, h2]

theorem UtxoLedger.remove_subset {α : Type} :
    ∀ (l : UtxoLedger α) (tid : TransactionId) (idx : Nat) (l2 : UtxoLedger α) (o : Output α),
    l.remove tid idx = .ok (l2, o) → (∀ e ∈ l2, e ∈ l) ∧ ∃ e ∈ l, e.output = o
  | [], _, _, _, _, h => by simp [UtxoLedger.remove] at h
  | e :: rest, tid, idx, l2, o, h => by
    simp only [UtxoLedger.remove] at h
    split at h
    · obtain ⟨rfl, rfl⟩ : rest = l2 ∧ e.output = o := by
        constructor <;> injection h with h1 <;> simp_all
      exact ⟨fun x hx => List.mem_cons_of_mem e hx, e, List.mem_cons_self e rest, rfl⟩
    · split at h
      next rest' o' hrec =>
        obtain ⟨rfl, rfl⟩ : e :: rest' = l2 ∧ o' = o := by
          constructor <;> injection h with h1 <;> simp_all
        obtain ⟨hsub, e2, he2, ho2⟩ := UtxoLedger.remove_subset rest tid idx rest' o' hrec
        constructor
        · intro x hx
          rcases List.mem_cons.mp hx with rfl | hx
          · exact List.mem_cons_self x rest
          · exact List.mem_cons_of_mem e (hsub x hx)
        · exact ⟨e2, List.mem_cons_of_mem e he2, ho2⟩
      next hrec => exact absurd h (by simp)

theorem UtxoLedger.add_ok {α : Type} (l : UtxoLedger α) (tid : TransactionId)
    (pairs : List (Nat × Output α)) (l2 : UtxoLedger α) (h : l.add tid pairs = .ok l2) :
    l2 = l ++ pairs.map (fun p => ⟨tid, p.1, p.2⟩) := by
  simp only [UtxoLedger.add] at h
  split at h
  · exact absurd h (by simp)
  · injection h with h1
    exact h1.symm

theorem PRes.error_of_not_ok_not_panic {α : Type} (r : PRes α)
    (h1 : r.isOk = false) (h2 : r.isPanic = false) : r.isError = true := by
  cases r <;> simp_all [PRes.isOk, PRes.isPanic, PRes.isError]

/-! ## No branch of the transition engine produces `NotBalanced` -/

theorem input_utxo_verify_ne_notBalanced (l : Ledger) (tid : TransactionId)
    (u : UtxoPointer) (w : Witness) (a b : Value) :
    input_utxo_verify l tid u w ≠ .error (.NotBalanced a b) := by
  intro hx
  unfold input_utxo_verify at hx
  split at hx
  · simp at hx
  · split at hx
    · simp at hx
    · split at hx
      · simp at hx
      · split at hx
        · simp at hx
        · split at hx <;> simp at hx
  · split at hx
    · simp at hx
    · split at hx
      · simp at hx
      · split at hx
        · simp at hx
        · split at hx <;> simp at hx

theorem input_account_verify_ne_notBalanced (l : AccountLedger) (tid : TransactionId)
    (acc : Identifier) (v : Value) (w : Witness) (a b : Value) :
    input_account_verify l tid acc v w ≠ .error (.NotBalanced a b) := by
  intro hx
  unfold input_account_verify at hx
  split at hx
  · simp at hx
  · split at hx
    · simp at hx
    · simp at hx
    · split at hx <;> simp at hx

theorem verifyInputs_ne_notBalanced :
    ∀ (l : Ledger) (tid : TransactionId) (ps : List (Input × Witness)) (a b : Value),
    verifyInputs l tid ps ≠ .error (.NotBalanced a b)
  | l, tid, [], a, b => by
    intro hx
    simp [verifyInputs] at hx
  | l, tid, (i, w) :: rest, a, b => by
    intro hx
    unfold verifyInputs at hx
    split at hx
    next x u =>
      split at hx
      · simp at hx
      next y e heq =>
        injection hx with hx
        exact input_utxo_verify_ne_notBalanced l tid u w a b (hx ▸ heq)
      next y l2 heq =>
        exact verifyInputs_ne_notBalanced l2 tid rest a b hx
    next x aid v =>
      split at hx
      next y e heq =>
        injection hx with hx
        exact input_account_verify_ne_notBalanced l.accounts tid aid v w a b (hx ▸ heq)
      next y acc2 heq =>
        exact verifyInputs_ne_notBalanced _ tid rest a b hx

theorem applyOutputs_ne_notBalanced (dyn : LedgerParameters) (disc : Discrimination) :
    ∀ (accounts : AccountLedger) (idx : Nat) (outs : List (Output Address)) (a b : Value),
    applyOutputs dyn disc accounts idx outs ≠ .error (.NotBalanced a b)
  | accounts, idx, [], a, b => by
    intro hx
    simp [applyOutputs] at hx
  | accounts, idx, o :: rest, a, b => by
    intro hx
    unfold applyOutputs at hx
    split at hx
    · simp at hx
    · split at hx
      · simp at hx
      · split at hx
        next x pk heq =>
          split at hx
          next y e heq2 =>
            injection hx with hx
            exact applyOutputs_ne_notBalanced dyn disc accounts (idx + 1) rest a b (hx ▸ heq2)
          next y acc2 ru heq2 => simp at hx
        next x pk1 pk2 heq =>
          split at hx
          next y e heq2 =>
            injection hx with hx
            exact applyOutputs_ne_notBalanced dyn disc accounts (idx + 1) rest a b (hx ▸ heq2)
          next y acc2 ru heq2 => simp at hx
        next x ident heq =>
          split at hx
          next y acc2 heq2 =>
            exact applyOutputs_ne_notBalanced dyn disc acc2 (idx + 1) rest a b hx
          next y heq2 =>
            split at hx
            · split at hx
              next z acc2 heq3 =>
                exact applyOutputs_ne_notBalanced dyn disc acc2 (idx + 1) rest a b hx
              next z e2 heq3 => simp at hx
            · simp at hx
          next y e heq2 => simp at hx

theorem internal_apply_transaction_ne_notBalanced (l : Ledger) (dyn : LedgerParameters)
    (tid : TransactionId) (ins : List Input) (outs : List (Output Address))
    (ws : List Witness) (a b : Value) :
    internal_apply_transaction l dyn tid ins outs ws ≠ .error (.NotBalanced a b) := by
  intro hx
  unfold internal_apply_transaction at hx
  split at hx
  · simp at hx
  · split at hx
    · simp at hx
    · split at hx
      · simp at hx
      next x e heq =>
        injection hx with hx
        exact verifyInputs_ne_notBalanced l tid (ins.zip ws) a b (hx ▸ heq)
      next x l2 heq =>
        split at hx
        · simp at hx
        next y ti heq1 =>
          split at hx
          · simp at hx
          next z tout heq2 =>
            split at hx
            next hne =>
              injection heq2 with heq2
              exact hne heq2
            next hne =>
              split at hx
              next u e heq3 =>
                injection hx with hx
                exact applyOutputs_ne_notBalanced dyn l2.static_params.discrimination
                  l2.accounts 0 outs a b (hx ▸ heq3)
              next u acc2 nu heq3 =>
                split at hx <;> simp at hx

theorem PRes.isNotBalanced_eq_false {α : Type} (r : PRes α)
    (h : ∀ a b, r ≠ .error (.NotBalanced a b)) : r.isNotBalanced = false := by
  cases r with
  | panic => rfl
  | ok _ => rfl
  | error e => cases e <;> first | rfl | exact absurd rfl (h _ _)

/-! ## Claim theorems -/

/-- Claim C1 (refuted; evidence of the code bug): the balance check is
supposed to compare the input total against the output total, but the
code sums the input list on both sides; the fixture transaction has
input total 2 and output total 1 (summed without overflow), yet
`apply_transaction` accepts it instead of failing with
`NotBalanced(2, 1)`. -/
theorem claim_C1_unbalanced_accepted :
    (Ledger.apply_transaction lAcc authUnbal dynT).isOk = true ∧
    Value.sum (authUnbal.transaction.inputs.map Input.value) = .ok 2 ∧
    Value.sum (authUnbal.transaction.outputs.map Output.value) = .ok 1 :=
  ⟨by decide, rfl, rfl⟩

/-- Claim C2 (confirmed): `internal_apply_transaction` never returns
`Error::NotBalanced` — both compared totals sum the same input list, so
whenever both summations succeed they are equal, and every other branch
produces a different error; output totals are left unchecked. -/
theorem claim_C2_notBalanced_unreachable (l : Ledger) (dyn : LedgerParameters)
    (tid : TransactionId) (ins : List Input) (outs : List (Output Address))
    (ws : List Witness) :
    (internal_apply_transaction l dyn tid ins outs ws).isNotBalanced = false :=
  PRes.isNotBalanced_eq_false _
    (fun a b => internal_apply_transaction_ne_notBalanced l dyn tid ins outs ws a b)

/-- Claim C3 (confirmed): for every transaction within the 254-element
arity bounds whose input count differs from its witness count,
`apply_transaction` returns exactly
`NotEnoughSignatures(inputs_len, witnesses_len)`; the base snapshot is
untouched since the transition is a pure function that returns only this
error and no new ledger. -/
theorem claim_C3_arity_check {Extra : Type} [Enc Extra] (l : Ledger)
    (dyn : LedgerParameters) (signed_tx : AuthenticatedTransaction Extra)
    (hi : signed_tx.transaction.inputs.length < 255)
    (ho : signed_tx.transaction.outputs.length < 255)
    (hw : signed_tx.witnesses.length < 255)
    (hne : signed_tx.transaction.inputs.length ≠ signed_tx.witnesses.length) :
    l.apply_transaction signed_tx dyn =
      .error (.NotEnoughSignatures signed_tx.transaction.inputs.length
        signed_tx.witnesses.length) := by
  unfold Ledger.apply_transaction internal_apply_transaction
  rw [if_neg (not_not_intro ⟨hi, ho, hw⟩), if_pos hne]

/-- Witness for claim C3: the spec's concrete scenario — one input, no
witness — yields `NotEnoughSignatures(1, 0)`. -/
theorem claim_C3_witness :
    Ledger.apply_transaction l0 authNoWit dynT = .error (.NotEnoughSignatures 1 0) :=
  claim_C3_arity_check l0 dynT authNoWit (by decide) (by decide) (by decide) (by decide)

/-- Claim C4 (refuted; evidence of the code bug): for a legacy input
whose referenced output is found with a matching value, the code returns
`OldUtxoInvalidPublicKey` exactly when the extended public key DOES
derive the legacy output's address (condition inverted), and proceeds to
the signature check — here all the way to success — when the key does
NOT derive it. -/
theorem claim_C4_old_pubkey_check_inverted :
    input_utxo_verify lOld 5 ptrOld (.OldUtxo 11 ⟨11, .txId 5⟩) =
      .error (.OldUtxoInvalidPublicKey ptrOld outOld (.OldUtxo 11 ⟨11, .txId 5⟩)) ∧
    oldaddress_from_xpub outOld.address 11 = true ∧
    input_utxo_verify lOld 5 ptrOld (.OldUtxo 12 ⟨12, .txId 5⟩) = .ok l0 ∧
    oldaddress_from_xpub outOld.address 12 = false :=
  ⟨by decide, by decide, by decide, by decide⟩

/-- Counterexample for claim C9: a block holding a legacy-UTXO
declaration makes `apply_block` panic (`unimplemented!()`), so it does
not reject the block by returning an error. -/
theorem claim_C9_counterexample :
    Ledger.apply_block l0 dynT [.OldUtxoDeclaration 0] = .panic ∧
    (Ledger.apply_block l0 dynT [.OldUtxoDeclaration 0]).isError = false :=
  ⟨by decide, by decide⟩

/-- Claim C9 (amended): for every block whose message list contains a
legacy-UTXO-declaration message, `apply_block` never produces a
successor ledger — it fails fast, by panicking (`unimplemented!()`) when
the declaration is reached or with an earlier message's failure — rather
than silently ignoring the message. -/
theorem claim_C9_fail_fast (l : Ledger) (p : LedgerParameters) (msgs : List Message)
    (d : OldUtxoDecl) (h : Message.OldUtxoDeclaration d ∈ msgs) :
    (Ledger.apply_block l p msgs).isOk = false := by
  induction msgs generalizing l with
  | nil => simp at h
  | cons m rest ih =>
    rcases List.mem_cons.mp h with rfl | hmem
    · rfl
    · unfold Ledger.apply_block
      split
      · rfl
      · rfl
      next l2 heq => exact ih l2 hmem

/-- Witness for claim C9 (amended): the concrete one-declaration block
produces no successor ledger. -/
theorem claim_C9_witness :
    (Ledger.apply_block l0 dynT [Message.OldUtxoDeclaration 0]).isOk = false :=
  claim_C9_fail_fast l0 dynT [Message.OldUtxoDeclaration 0] 0 (by simp)

/-- Claim C7 (confirmed): for an account input with an `Account`
witness, the debit returns the account's pre-debit spending counter, the
stored counter becomes its successor, and the signature is verified over
the composite message of the transaction id and exactly that pre-debit
counter — failure yielding `AccountInvalidSignature` with the account id
and witness. -/
theorem claim_C7_predebit_counter (accounts : AccountLedger) (tid : TransactionId)
    (id : Identifier) (v : Value) (sig : Sig) (st : AccountState)
    (hlk : accounts.lookup id = some st) (hv : v ≤ st.balance) :
    ∃ accounts2,
      accounts.remove_value id v = .ok (accounts2, st.counter) ∧
      accounts2.lookup id = some ⟨st.balance - v, st.counter + 1⟩ ∧
      input_account_verify accounts tid id v (.Account sig) =
        (if sig.verify id (TransactionIdSpendingCounter.new tid st.counter) = .Failed then
          .error (.AccountInvalidSignature id (.Account sig))
        else .ok accounts2) := by
  obtain ⟨acc2, h1, h2⟩ := AccountLedger.remove_value_spec accounts id v st hlk hv
  refine ⟨acc2, h1, h2, ?_⟩
  unfold input_account_verify
  rw [h1]

/-- Witness for claim C7: on the account store holding account 7 with
balance 10 and counter 0, a witness signed over (tid 5, counter 0)
verifies and the debit of 2 goes through. -/
theorem claim_C7_witness :
    (input_account_verify [(7, ⟨10, 0⟩)] 5 7 2 (.Account ⟨7, .txIdCounter 5 0⟩)).isOk = true := by
  obtain ⟨acc2, h1, h2, h3⟩ :=
    claim_C7_predebit_counter [(7, ⟨10, 0⟩)] 5 7 2 ⟨7, .txIdCounter 5 0⟩ ⟨10, 0⟩
      (by decide) (by decide)
  rw [h3, if_neg (by decide)]
  rfl

/-- Claim C8 (confirmed): `apply_certificate` succeeds exactly when the
enclosing transaction applies and then the delegation state accepts the
certificate payload, in that order; on success the result is the
transaction-applied ledger with its delegation state replaced, a
delegation error is propagated wrapped as `Delegation`, and a
transaction error is propagated unchanged. -/
theorem claim_C8_certificate_order (l : Ledger) (dyn : LedgerParameters)
    (tx : AuthenticatedTransaction Certificate) :
    (∀ lr, l.apply_certificate tx dyn = .ok lr ↔
      ∃ lt d, l.apply_transaction tx dyn = .ok lt ∧
        lt.delegation.apply tx.transaction.extra = .ok d ∧
        lr = { lt with delegation := d }) ∧
    (∀ lt derr, l.apply_transaction tx dyn = .ok lt →
      lt.delegation.apply tx.transaction.extra = .error derr →
      l.apply_certificate tx dyn = .error (.Delegation derr)) ∧
    (∀ e, l.apply_transaction tx dyn = .error e →
      l.apply_certificate tx dyn = .error e) := by
  refine ⟨?_, ?_, ?_⟩
  · intro lr
    constructor
    · intro h
      unfold Ledger.apply_certificate at h
      split at h
      · simp at h
      · simp at h
      next lt heq =>
        split at h
        · simp at h
        next d heq2 =>
          injection h with h
          exact ⟨lt, d, heq, heq2, h.symm⟩
    · rintro ⟨lt, d, h1, h2, rfl⟩
      unfold Ledger.apply_certificate
      rw [h1]
      simp only []
      rw [h2]
  · intro lt derr h1 h2
    unfold Ledger.apply_certificate
    rw [h1]
    simp only []
    rw [h2]
  · intro e h1
    unfold Ledger.apply_certificate
    rw [h1]

/-- Witness for claim C8: on a ledger whose delegation state already
holds certificate 5, the certificate transaction applies as a
transaction but the delegation component rejects the payload, so the
whole message errors with `Delegation`. -/
theorem claim_C8_witness :
    Ledger.apply_certificate lDel certTx dynT = .error (.Delegation .CertificateRejected) :=
  (claim_C8_certificate_order lDel dynT certTx).2.1 lDel .CertificateRejected
    (by decide) (by rfl)

/-- Computation of the transition function on a transaction with no
inputs, no witnesses and a single output: steps 1–3 pass (the empty sums
are trivially balanced) and the result is decided by output application
and the UTXO insertion. -/
theorem internal_no_inputs_single_output (l : Ledger) (dyn : LedgerParameters)
    (tid : TransactionId) (o : Output Address) :
    internal_apply_transaction l dyn tid [] [o] [] =
      match applyOutputs dyn l.static_params.discrimination l.accounts 0 [o] with
      | .error e => .error e
      | .ok (acc2, nu) =>
        match l.utxos.add tid nu with
        | .error e => .error (.UtxoError e)
        | .ok utxos => .ok { l with accounts := acc2, utxos := utxos } := rfl

/-- Claim C6 (confirmed): applying a pay-to-account output credits an
existing account, spontaneously creates the account with the output
value when permitted by the dynamic parameters, and otherwise fails with
the underlying non-existent-account error wrapped as `Account`. -/
theorem claim_C6_account_output (l : Ledger) (dyn : LedgerParameters) (tid : TransactionId)
    (id : Identifier) (v : Value) (hv : v ≠ 0) :
    (∀ st, l.accounts.lookup id = some st → st.balance + v < U64LIMIT →
      ∃ l2, internal_apply_transaction l dyn tid [] [accOut l id v] [] = .ok l2 ∧
        l2.accounts.lookup id = some ⟨st.balance + v, st.counter⟩) ∧
    (l.accounts.lookup id = none → dyn.allow_account_creation = true →
      ∃ l2, internal_apply_transaction l dyn tid [] [accOut l id v] [] = .ok l2 ∧
        l2.accounts.lookup id = some ⟨v, 0⟩) ∧
    (l.accounts.lookup id = none → dyn.allow_account_creation = false →
      internal_apply_transaction l dyn tid [] [accOut l id v] [] =
        .error (.Account .NonExistent)) := by
  have hbase : ∀ acc2 : AccountLedger,
      applyOutputs dyn l.static_params.discrimination l.accounts 0 [accOut l id v] =
        .ok (acc2, []) →
      internal_apply_transaction l dyn tid [] [accOut l id v] [] =
        .ok { l with accounts := acc2 } := by
    intro acc2 hap
    rw [internal_no_inputs_single_output, hap]
    dsimp only
    simp [UtxoLedger.add, UtxoLedger.contains]
  refine ⟨?_, ?_, ?_⟩
  · intro st hlk hb
    obtain ⟨acc2, hadd, hlook⟩ := AccountLedger.lookup_some_add_value l.accounts id v st hlk hb
    have hap : applyOutputs dyn l.static_params.discrimination l.accounts 0 [accOut l id v] =
        .ok (acc2, []) := by
      unfold applyOutputs
      simp only [accOut, Address.discrimination]
      rw [if_neg hv, if_neg (not_not_intro rfl)]
      rw [hadd]
      rfl
    exact ⟨{ l with accounts := acc2 }, hbase acc2 hap, hlook⟩
  · intro hnone hallow
    have hadd := AccountLedger.lookup_none_add_value l.accounts id v hnone
    have hap : applyOutputs dyn l.static_params.discrimination l.accounts 0 [accOut l id v] =
        .ok ((id, ⟨v, 0⟩) :: l.accounts, []) := by
      unfold applyOutputs
      simp only [accOut, Address.discrimination]
      rw [if_neg hv, if_neg (not_not_intro rfl)]
      rw [hadd]
      dsimp only
      rw [if_pos hallow]
      simp only [AccountLedger.add_account, hnone]
      rfl
    refine ⟨{ l with accounts := (id, ⟨v, 0⟩) :: l.accounts },
      hbase _ hap, ?_⟩
    simp [AccountLedger.lookup]
  · intro hnone hfalse
    have hadd := AccountLedger.lookup_none_add_value l.accounts id v hnone
    have hap : applyOutputs dyn l.static_params.discrimination l.accounts 0 [accOut l id v] =
        .error (.Account .NonExistent) := by
      unfold applyOutputs
      simp only [accOut, Address.discrimination]
      rw [if_neg hv, if_neg (not_not_intro rfl)]
      rw [hadd]
      dsimp only
      rw [if_neg (by simp [hfalse])]
    rw [internal_no_inputs_single_output, hap]

/-- Witness for claim C6: crediting the existing account 7 of `lAcc`
with 4 succeeds, and paying a non-existent account with creation
disallowed fails with `Account(NonExistent)`. -/
theorem claim_C6_witness :
    (internal_apply_transaction lAcc dynT 5 [] [accOut lAcc 7 4] []).isOk = true ∧
    internal_apply_transaction lAcc dynF 5 [] [accOut lAcc 9 4] [] =
      .error (.Account .NonExistent) := by
  constructor
  · obtain ⟨l2, hok, hlook⟩ :=
      (claim_C6_account_output lAcc dynT 5 7 4 (by decide)).1 ⟨10, 0⟩ (by decide) (by decide)
    rw [hok]
    rfl
  · exact (claim_C6_account_output lAcc dynF 5 9 4 (by decide)).2.2 (by decide) (by decide)

/-! ## UTXO-kind invariant and panic freedom -/

theorem addrIsUtxoKind_public_key (a : Address) (h : addrIsUtxoKind a = true) :
    ∃ pk, a.public_key = some pk := by
  cases hk : a.kind with
  | Single pk => exact ⟨pk, by simp [Address.public_key, hk]⟩
  | Group pk1 pk2 => exact ⟨pk1, by simp [Address.public_key, hk]⟩
  | Account i => simp [addrIsUtxoKind, hk] at h

theorem input_utxo_verify_no_panic (l : Ledger) (tid : TransactionId) (u : UtxoPointer)
    (w : Witness) (hinv : utxoInvariant l) :
    (input_utxo_verify l tid u w).isPanic = false := by
  unfold input_utxo_verify
  cases w with
  | Account s => rfl
  | OldUtxo x s =>
    cases h : l.oldutxos.remove u.transaction_id u.output_index with
    | error e => rfl
    | ok p =>
      obtain ⟨rest, o⟩ := p
      dsimp only
      split
      · rfl
      split
      · rfl
      split <;> rfl
  | Utxo s =>
    cases h : l.utxos.remove u.transaction_id u.output_index with
    | error e => rfl
    | ok p =>
      obtain ⟨rest, o⟩ := p
      dsimp only
      split
      · rfl
      · obtain ⟨hsub, e0, he0, ho0⟩ :=
          UtxoLedger.remove_subset l.utxos u.transaction_id u.output_index rest o h
        obtain ⟨pk, hpk⟩ := addrIsUtxoKind_public_key o.address (ho0 ▸ hinv e0 he0)
        rw [hpk]
        dsimp only
        split <;> rfl

theorem input_utxo_verify_preserves (l l2 : Ledger) (tid : TransactionId) (u : UtxoPointer)
    (w : Witness) (h : input_utxo_verify l tid u w = .ok l2) :
    ∀ e ∈ l2.utxos, e ∈ l.utxos := by
  unfold input_utxo_verify at h
  split at h
  · simp at h
  · split at h
    · simp at h
    next x old_utxos ao heq =>
      split at h
      · simp at h
      · split at h
        · simp at h
        · split at h
          · simp at h
          · injection h with h
            subst h
            exact fun e he => he
  · split at h
    · simp at h
    next x new_utxos ao heq =>
      split at h
      · simp at h
      · split at h
        · simp at h
        next y pk hpk =>
          split at h
          · simp at h
          · injection h with h
            subst h
            exact fun e he =>
              (UtxoLedger.remove_subset l.utxos u.transaction_id u.output_index
                new_utxos ao heq).1 e he

theorem verifyInputs_preserves :
    ∀ (l : Ledger) (tid : TransactionId) (ps : List (Input × Witness)) (l2 : Ledger),
    verifyInputs l tid ps = .ok l2 → ∀ e ∈ l2.utxos, e ∈ l.utxos
  | l, tid, [], l2, h => by
    simp only [verifyInputs] at h
    injection h with h
    subst h
    exact fun e he => he
  | l, tid, (i, w) :: rest, l2, h => by
    unfold verifyInputs at h
    split at h
    next x u =>
      split at h
      · simp at h
      next y e heq => simp at h
      next y l3 heq =>
        intro e he
        exact input_utxo_verify_preserves l l3 tid u w heq e
          (verifyInputs_preserves l3 tid rest l2 h e he)
    next x aid v =>
      split at h
      next y e heq => simp at h
      next y acc2 heq =>
        intro e he
        exact verifyInputs_preserves _ tid rest l2 h e he

theorem verifyInputs_no_panic :
    ∀ (l : Ledger) (tid : TransactionId) (ps : List (Input × Witness)),
    utxoInvariant l → (verifyInputs l tid ps).isPanic = false
  | l, tid, [], hinv => rfl
  | l, tid, (i, w) :: rest, hinv => by
    cases i with
    | utxo u =>
      simp only [verifyInputs]
      cases h : input_utxo_verify l tid u w with
      | panic =>
        have hnp := input_utxo_verify_no_panic l tid u w hinv
        rw [h] at hnp
        simpa using hnp
      | error e => rfl
      | ok l3 =>
        have hinv3 : utxoInvariant l3 := fun e he =>
          hinv e (input_utxo_verify_preserves l l3 tid u w h e he)
        exact verifyInputs_no_panic l3 tid rest hinv3
    | account aid v =>
      simp only [verifyInputs]
      cases h : input_account_verify l.accounts tid aid v w with
      | error e => rfl
      | ok acc2 =>
        exact verifyInputs_no_panic _ tid rest (fun e he => hinv e he)

theorem applyOutputs_staged_kind (dyn : LedgerParameters) (disc : Discrimination) :
    ∀ (accs : AccountLedger) (idx : Nat) (outs : List (Output Address))
      (acc2 : AccountLedger) (nu : List (Nat × Output Address)),
    applyOutputs dyn disc accs idx outs = .ok (acc2, nu) →
    ∀ p ∈ nu, addrIsUtxoKind p.2.address = true
  | accs, idx, [], acc2, nu, h => by
    simp only [applyOutputs] at h
    injection h with h
    injection h with h1 h2
    subst h2
    intro p hp
    simp at hp
  | accs, idx, o :: rest, acc2, nu, h => by
    unfold applyOutputs at h
    split at h
    · simp at h
    · split at h
      · simp at h
      · split at h
        next x pk heq =>
          split at h
          next y e heq2 => simp at h
          next y acc3 ru heq2 =>
            injection h with h
            injection h with h1 h2
            subst h1
            subst h2
            intro p hp
            rcases List.mem_cons.mp hp with rfl | hp
            · simp [addrIsUtxoKind, heq]
            · exact applyOutputs_staged_kind dyn disc accs (idx + 1) rest acc3 ru heq2 p hp
        next x pk1 pk2 heq =>
          split at h
          next y e heq2 => simp at h
          next y acc3 ru heq2 =>
            injection h with h
            injection h with h1 h2
            subst h1
            subst h2
            intro p hp
            rcases List.mem_cons.mp hp with rfl | hp
            · simp [addrIsUtxoKind, heq]
            · exact applyOutputs_staged_kind dyn disc accs (idx + 1) rest acc3 ru heq2 p hp
        next x ident heq =>
          split at h
          next y acc3 heq2 =>
            exact applyOutputs_staged_kind dyn disc acc3 (idx + 1) rest acc2 nu h
          next y heq2 =>
            split at h
            · split at h
              next z acc3 heq3 =>
                exact applyOutputs_staged_kind dyn disc acc3 (idx + 1) rest acc2 nu h
              next z e2 heq3 => simp at h
            · simp at h
          next y e heq2 => simp at h

theorem internal_apply_transaction_preserves (l : Ledger) (dyn : LedgerParameters)
    (tid : TransactionId) (ins : List Input) (outs : List (Output Address))
    (ws : List Witness) (l2 : Ledger)
    (h : internal_apply_transaction l dyn tid ins outs ws = .ok l2)
    (hinv : utxoInvariant l) : utxoInvariant l2 := by
  unfold internal_apply_transaction at h
  split at h
  · simp at h
  · split at h
    · simp at h
    · split at h
      · simp at h
      next x e heq => simp at h
      next x l3 heq =>
        split at h
        · simp at h
        next y ti heq1 =>
          split at h
          · simp at h
          next z tout heq2 =>
            split at h
            · simp at h
            next hne =>
              split at h
              next u e heq3 => simp at h
              next u acc2 nu heq3 =>
                split at h
                next v e heq4 => simp at h
                next v utxos2 heq4 =>
                  injection h with h
                  subst h
                  have hadd := UtxoLedger.add_ok l3.utxos tid nu utxos2 heq4
                  subst hadd
                  intro e he
                  rcases List.mem_append.mp he with he | he
                  · exact hinv e (verifyInputs_preserves l tid (ins.zip ws) l3 heq e he)
                  · obtain ⟨p, hp, hpe⟩ := List.mem_map.mp he
                    subst hpe
                    exact applyOutputs_staged_kind dyn l3.static_params.discrimination
                      l3.accounts 0 outs acc2 nu heq3 p hp

theorem apply_transaction_preserves {Extra : Type} [Enc Extra] (l : Ledger)
    (tx : AuthenticatedTransaction Extra) (dyn : LedgerParameters) (l2 : Ledger)
    (h : l.apply_transaction tx dyn = .ok l2) (hinv : utxoInvariant l) : utxoInvariant l2 :=
  internal_apply_transaction_preserves l dyn tx.transaction.hash tx.transaction.inputs
    tx.transaction.outputs tx.witnesses l2 h hinv

theorem apply_update_preserves (l : Ledger) (u : UpdateProposal) (l2 : Ledger)
    (h : l.apply_update u = .ok l2) (hinv : utxoInvariant l) : utxoInvariant l2 := by
  unfold Ledger.apply_update at h
  injection h with h
  subst h
  exact fun e he => hinv e he

theorem apply_certificate_preserves (l : Ledger) (tx : AuthenticatedTransaction Certificate)
    (dyn : LedgerParameters) (l2 : Ledger) (h : l.apply_certificate tx dyn = .ok l2)
    (hinv : utxoInvariant l) : utxoInvariant l2 := by
  unfold Ledger.apply_certificate at h
  split at h
  · simp at h
  · simp at h
  next x lt heq =>
    split at h
    · simp at h
    next y d heq2 =>
      injection h with h
      subst h
      exact fun e he => apply_transaction_preserves l tx dyn lt heq hinv e he

theorem applyMessage_preserves (l : Ledger) (p : LedgerParameters) (m : Message) (l2 : Ledger)
    (h : l.applyMessage p m = .ok l2) (hinv : utxoInvariant l) : utxoInvariant l2 := by
  cases m with
  | OldUtxoDeclaration d => simp [Ledger.applyMessage] at h
  | Transaction tx => exact apply_transaction_preserves l tx p l2 h hinv
  | Update u => exact apply_update_preserves l u l2 h hinv
  | Certificate tx => exact apply_certificate_preserves l tx p l2 h hinv

theorem apply_block_preserves :
    ∀ (l : Ledger) (p : LedgerParameters) (msgs : List Message) (l2 : Ledger),
    Ledger.apply_block l p msgs = .ok l2 → utxoInvariant l → utxoInvariant l2
  | l, p, [], l2, h, hinv => by
    simp only [Ledger.apply_block] at h
    injection h with h
    subst h
    exact hinv
  | l, p, m :: rest, l2, h, hinv => by
    unfold Ledger.apply_block at h
    split at h
    · simp at h
    · simp at h
    next x l3 heq =>
      exact apply_block_preserves l3 p rest l2 h (applyMessage_preserves l p m l3 heq hinv)

theorem reachable_invariant (l : Ledger) (h : Reachable l) : utxoInvariant l := by
  induction h with
  | base sp s =>
    intro e he
    simp [Ledger.new, UtxoLedger.new] at he
  | step lb p msgs l2 hr hb ih => exact apply_block_preserves lb p msgs l2 hb ih

theorem internal_apply_transaction_no_panic (l : Ledger) (dyn : LedgerParameters)
    (tid : TransactionId) (ins : List Input) (outs : List (Output Address))
    (ws : List Witness) (hinv : utxoInvariant l) (hi : ins.length < 255)
    (ho : outs.length < 255) (hw : ws.length < 255) :
    (internal_apply_transaction l dyn tid ins outs ws).isPanic = false := by
  unfold internal_apply_transaction
  rw [if_neg (not_not_intro ⟨hi, ho, hw⟩)]
  split
  · rfl
  · cases h : verifyInputs l tid (ins.zip ws) with
    | panic =>
      have hnp := verifyInputs_no_panic l tid (ins.zip ws) hinv
      rw [h] at hnp
      simpa using hnp
    | error e => rfl
    | ok l3 =>
      dsimp only
      cases h1 : Value.sum (ins.map Input.value) with
      | error e => rfl
      | ok ti =>
        dsimp only
        split
        · rfl
        · cases h2 : applyOutputs dyn l3.static_params.discrimination l3.accounts 0 outs with
          | error e => rfl
          | ok p =>
            obtain ⟨acc2, nu⟩ := p
            dsimp only
            cases h3 : l3.utxos.add tid nu <;> rfl

theorem applyOutputs_ok_no_zero (dyn : LedgerParameters) (disc : Discrimination) :
    ∀ (accs : AccountLedger) (idx : Nat) (outs : List (Output Address))
      (r : AccountLedger × List (Nat × Output Address)),
    applyOutputs dyn disc accs idx outs = .ok r → ∀ o ∈ outs, o.value ≠ 0
  | accs, idx, [], r, h => by
    intro o ho
    simp at ho
  | accs, idx, o :: rest, r, h => by
    unfold applyOutputs at h
    split at h
    · simp at h
    next hz =>
      split at h
      · simp at h
      · intro o2 ho2
        rcases List.mem_cons.mp ho2 with rfl | ho2
        · exact hz
        · split at h
          next x pk heq =>
            split at h
            next y e heq2 => simp at h
            next y acc3 ru heq2 =>
              exact applyOutputs_ok_no_zero dyn disc accs (idx + 1) rest _ heq2 o2 ho2
          next x pk1 pk2 heq =>
            split at h
            next y e heq2 => simp at h
            next y acc3 ru heq2 =>
              exact applyOutputs_ok_no_zero dyn disc accs (idx + 1) rest _ heq2 o2 ho2
          next x ident heq =>
            split at h
            next y acc3 heq2 =>
              exact applyOutputs_ok_no_zero dyn disc acc3 (idx + 1) rest r h o2 ho2
            next y heq2 =>
              split at h
              · split at h
                next z acc3 heq3 =>
                  exact applyOutputs_ok_no_zero dyn disc acc3 (idx + 1) rest r h o2 ho2
                next z e2 heq3 => simp at h
              · simp at h
            next y e heq2 => simp at h

theorem internal_apply_transaction_ok_no_zero (l : Ledger) (dyn : LedgerParameters)
    (tid : TransactionId) (ins : List Input) (outs : List (Output Address))
    (ws : List Witness) (l2 : Ledger)
    (h : internal_apply_transaction l dyn tid ins outs ws = .ok l2) :
    ∀ o ∈ outs, o.value ≠ 0 := by
  unfold internal_apply_transaction at h
  split at h
  · simp at h
  · split at h
    · simp at h
    · split at h
      · simp at h
      next x e heq => simp at h
      next x l3 heq =>
        split at h
        · simp at h
        next y ti heq1 =>
          split at h
          · simp at h
          next z tout heq2 =>
            split at h
            · simp at h
            next hne =>
              split at h
              next u e heq3 => simp at h
              next u acc2 nu heq3 =>
                exact applyOutputs_ok_no_zero dyn l3.static_params.discrimination
                  l3.accounts 0 outs (acc2, nu) heq3

/-- Claim C5 (confirmed): a transaction containing a zero-value output
never succeeds — `apply_transaction` never returns `Ok`; moreover on any
ledger satisfying the UTXO-kind invariant (in particular any reachable
ledger) and within the arity bounds, the result is a returned error. -/
theorem claim_C5_zero_output_rejected {Extra : Type} [Enc Extra] (l : Ledger)
    (dyn : LedgerParameters) (tx : AuthenticatedTransaction Extra) (o : Output Address)
    (hmem : o ∈ tx.transaction.outputs) (hzero : o.value = 0) :
    (l.apply_transaction tx dyn).isOk = false ∧
    (utxoInvariant l → tx.transaction.inputs.length < 255 →
      tx.transaction.outputs.length < 255 → tx.witnesses.length < 255 →
      (l.apply_transaction tx dyn).isError = true) := by
  have hnotok : (l.apply_transaction tx dyn).isOk = false := by
    cases h : l.apply_transaction tx dyn with
    | panic => rfl
    | error e => rfl
    | ok l2 =>
      exact absurd hzero (internal_apply_transaction_ok_no_zero l dyn tx.transaction.hash
        tx.transaction.inputs tx.transaction.outputs tx.witnesses l2 h o hmem)
  refine ⟨hnotok, fun hinv hi ho hw => ?_⟩
  exact PRes.error_of_not_ok_not_panic _ hnotok
    (internal_apply_transaction_no_panic l dyn tx.transaction.hash tx.transaction.inputs
      tx.transaction.outputs tx.witnesses hinv hi ho hw)

/-- Witness for claim C5: the concrete no-input transaction with a
zero-value output is not accepted, and on the empty ledger the result is
a returned error. -/
theorem claim_C5_witness :
    (Ledger.apply_transaction l0 authZero dynT).isOk = false ∧
    (Ledger.apply_transaction l0 authZero dynT).isError = true := by
  have h := claim_C5_zero_output_rejected l0 dynT authZero
    { address := { d := .Test, kind := .Single 2 }, value := 0 } (by decide) rfl
  exact ⟨h.1, h.2 (fun e he => by simp [l0, Ledger.new, UtxoLedger.new] at he)
    (by decide) (by decide) (by decide)⟩

/-- Claim C10 (confirmed): every ledger reachable from `Ledger::new` by
successful block applications stores only `Single`- or `Group`-kind
addresses in its current UTXO set (never `Account`), and on such a
ledger the unconditional public-key extraction inside current-UTXO
witness verification never panics. -/
theorem claim_C10_utxo_kind_invariant (l : Ledger) (h : Reachable l) :
    utxoInvariant l ∧
    ∀ (tid : TransactionId) (u : UtxoPointer) (w : Witness),
      (input_utxo_verify l tid u w).isPanic = false := by
  have hinv := reachable_invariant l h
  exact ⟨hinv, fun tid u w => input_utxo_verify_no_panic l tid u w hinv⟩

/-- Witness for claim C10: on the freshly created ledger, verifying an
arbitrary current-UTXO witness does not panic. -/
theorem claim_C10_witness :
    (input_utxo_verify (Ledger.new spT 0) 3 ⟨3, 0, 5⟩ (.Utxo ⟨2, .txId 3⟩)).isPanic = false :=
  (claim_C10_utxo_kind_invariant (Ledger.new spT 0) (Reachable.base spT 0)).2 3 ⟨3, 0, 5⟩ _
